/-
Verification of the command-resolution pipeline and the autocomplete engine of
the AI-powered JARVIS shell.  The Python sources embedded here are
ai_shell/nlp_processor.py (three-layer resolver and extraction),
ai_shell/shell_core.py (execute_command) and
ai_shell/autocomplete_engine.py (cached suggestion engine).

Conventions of the embedding:
  - Python strings are Lean `String`s; the helpers `pyStrip`, `pyLower`,
    `pySplit` model str.strip() / str.lower() / str.split() on the ASCII
    whitespace set (space, tab, newline, carriage return, vertical tab, form
    feed), which is the set exercised by this code base.
  - Regular-expression searches from the source are embedded as bespoke
    executable search functions that reproduce Python's leftmost search and
    backtracking priorities (greedy and lazy quantifiers) for the concrete
    patterns appearing in the source.
  - External collaborators (the generation model, the subprocess runner) are
    parameters: their observable outcome is an explicit argument, and the
    embedded function reproduces how the source consumes that outcome.
  - A Python statement that can raise is embedded with `Except`/`Option`, the
    error value standing for the raised exception.
-/
import Mathlib

/-- Python ASCII whitespace as used by str.strip(), str.split() and by the
ASCII fragment of the regex class backslash-s: space, tab, newline, carriage
return, vertical tab (0x0b) and form feed (0x0c). -/
def pyIsSpace (c : Char) : Bool :=
  c = ' ' || c = '\t' || c = '\n' || c = '\r' || c = Char.ofNat 11 || c = Char.ofNat 12

/-- Embedding of str.strip() on the character list: drop whitespace from both
ends. -/
def pyStripL (cs : List Char) : List Char :=
  ((cs.dropWhile pyIsSpace).reverse.dropWhile pyIsSpace).reverse

/-- Embedding of str.strip(). -/
def pyStrip (s : String) : String := String.mk (pyStripL s.data)

/-- Embedding of str.lower(); `Char.toLower` performs the ASCII a-z mapping,
which is the fragment this code base exercises. -/
def pyLower (s : String) : String := String.mk (s.data.map Char.toLower)

/-- Worker for str.split(): `acc` holds the current word reversed. -/
def splitAux : List Char → List Char → List (List Char)
  | [], acc => if acc.isEmpty then [] else [acc.reverse]
  | c :: cs, acc =>
    if pyIsSpace c then
      if acc.isEmpty then splitAux cs [] else acc.reverse :: splitAux cs []
    else splitAux cs (c :: acc)

/-- Embedding of str.split() with no separator argument: split on runs of
whitespace, discarding empty fields. -/
def pySplitL (cs : List Char) : List (List Char) := splitAux cs []

/-- Embedding of str.split() at the `String` level. -/
def pySplit (s : String) : List String := (pySplitL s.data).map String.mk

/-- Embedding of " ".join(xs). -/
def joinSpace : List String → String
  | [] => ""
  | [x] => x
  | x :: xs => x ++ " " ++ joinSpace xs

/-- Substring test on character lists, i.e. Python's `pat in s`. -/
def isSubstrL (pat : List Char) : List Char → Bool
  | [] => pat.isEmpty
  | c :: cs => pat.isPrefixOf (c :: cs) || isSubstrL pat cs

/-- Embedding of Python's `pat in s` for strings. -/
def isSubstr (pat s : String) : Bool := isSubstrL pat.data s.data

/-- Operating systems distinguished by platform.system() in the source. -/
inductive OSType
  | Windows
  | Linux
  | Darwin
deriving DecidableEq, Repr

/-- Embedding of the nested dict COMMAND_MAP of nlp_processor.py: concept
name and OS to the literal command prefix; `none` models an absent key. -/
def COMMAND_MAP (concept : String) (os : OSType) : Option String :=
  match concept, os with
  | "list_items", .Windows => some "Get-ChildItem"
  | "list_items", .Linux => some "ls -l"
  | "list_items", .Darwin => some "ls -l"
  | "list_all_items", .Windows => some "Get-ChildItem -Force"
  | "list_all_items", .Linux => some "ls -a"
  | "list_all_items", .Darwin => some "ls -a"
  | "show_location", .Windows => some "Get-Location"
  | "show_location", .Linux => some "pwd"
  | "show_location", .Darwin => some "pwd"
  | "clear_screen", .Windows => some "Clear-Host"
  | "clear_screen", .Linux => some "clear"
  | "clear_screen", .Darwin => some "clear"
  | "make_directory", .Windows => some "New-Item -ItemType Directory"
  | "make_directory", .Linux => some "mkdir"
  | "make_directory", .Darwin => some "mkdir"
  | "create_file", .Windows => some "New-Item -ItemType File"
  | "create_file", .Linux => some "touch"
  | "create_file", .Darwin => some "touch"
  | _, _ => none

/-- Embedding of the dict ALIAS_MAP of nlp_processor.py: literal trigger to
concept name. -/
def ALIAS_MAP (t : String) : Option String :=
  match t with
  | "ls" => some "list_items"
  | "dir" => some "list_items"
  | "ls -a" => some "list_all_items"
  | "pwd" => some "show_location"
  | "clear" => some "clear_screen"
  | "cls" => some "clear_screen"
  | "mkdir" => some "make_directory"
  | "touch" => some "create_file"
  | "get-childitem" => some "list_items"
  | "get-location" => some "show_location"
  | "clear-host" => some "clear_screen"
  | "new-item -itemtype directory" => some "make_directory"
  | "new-item -itemtype file" => some "create_file"
  | _ => none

/-- Regex word characters (the ASCII fragment of backslash-w). -/
def isWordChar (c : Char) : Bool := c.isAlphanum || c = '_'

/-- Word-ness of an optional character; out-of-string counts as non-word. -/
def wordB (oc : Option Char) : Bool :=
  match oc with
  | some c => isWordChar c
  | none => false

/-- One literal of DANGEROUS_REGEX, delimited on both sides by the regex
word-boundary assertion, tested at the head of `s`; `prev` is the character
preceding this position in the subject. -/
def litBoundedAt (prev : Option Char) (s lit : List Char) : Bool :=
  lit.isPrefixOf s &&
    ((wordB prev).xor (wordB lit.head?)) &&
    ((wordB lit.getLast?).xor (wordB ((s.drop lit.length).head?)))

/-- Scan of the subject for a word-bounded occurrence of `lit`. -/
def scanDanger (lit : List Char) : Option Char → List Char → Bool
  | _, [] => false
  | prev, c :: cs => litBoundedAt prev (c :: cs) lit || scanDanger lit (some c) cs

/-- Literals of DANGEROUS_PATTERNS of nlp_processor.py, lower-cased (the
compiled regex is case-insensitive and the subject is lower-cased before the
scan below), in source order. -/
def DANGEROUS_PATTERNS : List String :=
  ["rm", "rm -rf", "rm -r", "del", "remove-item", "format",
   "dd", "shutdown", "reboot", "mkfs", ": > /dev/sda"]

/-- Embedding of looks_dangerous of nlp_processor.py: DANGEROUS_REGEX is the
case-insensitive alternation of the word-bounded literals, and re.search
succeeds iff some literal occurs word-bounded in the subject. -/
def looks_dangerous (command_str : String) : Bool :=
  DANGEROUS_PATTERNS.any (fun p => scanDanger p.data none (pyLower command_str).data)

/-- Backquote character (code 96), the fence character of markdown code
blocks. -/
def backquoteChar : Char := Char.ofNat 96

/-- Three fence characters, the opening and closing delimiter of the code
block regex of extract_command_from_output. -/
def bqTriple : List Char := [backquoteChar, backquoteChar, backquoteChar]

/-- Content preceding the first closing fence in `cs`: the lazy dot-star of
the code block regex under re.DOTALL stops at the earliest closing fence;
`none` when no closing fence exists. -/
def findTripleBefore : List Char → Option (List Char)
  | [] => none
  | c :: cs =>
    if bqTriple.isPrefixOf (c :: cs) then some []
    else (findTripleBefore cs).map (fun b => c :: b)

/-- Body of a code block whose opening fence just ended: the optional greedy
language-tag group (word characters then a newline) is tried first, as the
regex engine prefers the group present; on failure to complete, the group
matches empty. -/
def codeBlockBodyAt (after : List Char) : Option (List Char) :=
  let w := after.takeWhile isWordChar
  let opt1 : Option (List Char) :=
    if !w.isEmpty && (after.drop w.length).head? = some '\n' then
      findTripleBefore (after.drop (w.length + 1))
    else none
  match opt1 with
  | some b => some b
  | none => findTripleBefore after

/-- Leftmost search of the code block regex of extract_command_from_output,
returning the first capture group: scan for an opening fence, and complete
the match there if possible, else continue the scan one character later. -/
def searchCodeBlockL : List Char → Option (List Char)
  | [] => none
  | c :: cs =>
    if bqTriple.isPrefixOf (c :: cs) then
      match codeBlockBodyAt ((c :: cs).drop 3) with
      | some body => some body
      | none => searchCodeBlockL cs
    else searchCodeBlockL cs

/-- Embedding of content.split(newline): split at each newline character,
keeping empty fields; the result is never the empty list. -/
def splitNlL : List Char → List (List Char)
  | [] => [[]]
  | c :: cs =>
    if c = '\n' then [] :: splitNlL cs
    else
      match splitNlL cs with
      | [] => [[c]]
      | h :: t => (c :: h) :: t

/-- Embedding of str.replace applied to remove every backquote. -/
def removeBackquotes (cs : List Char) : List Char := cs.filter (fun c => c ≠ backquoteChar)

/-- Embedding of extract_command_from_output of nlp_processor.py: first a
code block, then the last non-blank line (each line stripped), then the
stripped raw content with backquotes removed. -/
def extract_command_from_output (content : String) : String :=
  match searchCodeBlockL content.data with
  | some body => String.mk (pyStripL body)
  | none =>
    let lines := (splitNlL content.data).map pyStripL
    let nonblank := lines.filter (fun l => !l.isEmpty)
    match nonblank.getLast? with
    | some l => String.mk l
    | none => String.mk (removeBackquotes (pyStripL content.data))

/-- Single-quote character (code 39). -/
def sglQuote : String := String.mk [Char.ofNat 39]

/-- Embedding of call_ollama_model of nlp_processor.py.  The observable
outcome of the ollama.chat call is the parameter: `Except.error e` models
the raised exception with message `e`, `Except.ok raw` a response whose
message content is `raw`.  The system prompt only parameterizes the external
call and does not influence this post-processing.  Of note, the
looks_dangerous check present in the source is commented out, so no safety
gating happens here. -/
def call_ollama_model (resp : Except String String) : String :=
  match resp with
  | .error e => "echo " ++ sglQuote ++ "Error with LLM service: " ++ e ++ sglQuote
  | .ok raw =>
    let command := extract_command_from_output raw
    if command = "COMMAND_NOT_FOUND" then
      "echo \"I am not able to generate a command for that request.\""
    else command

/-- Alternation (file|folder|directory) of the creation pattern, tried in
source order at the head of `cs`; returns the capture and its length. -/
def kindAt (cs : List Char) : Option (String × Nat) :=
  if ("file".data).isPrefixOf cs then some ("file", 4)
  else if ("folder".data).isPrefixOf cs then some ("folder", 6)
  else if ("directory".data).isPrefixOf cs then some ("directory", 9)
  else none

/-- Lazy one-character group (the dot-plus-question of the creation pattern,
taken at its minimal length 1): matches any character except newline. -/
def tryDot : List Char → Option Char
  | [] => none
  | c :: _ => if c = '\n' then none else some c

/-- Tail of the creation pattern after the whitespace run: the optional
greedy quote is tried consumed first, then empty, followed by the lazy
one-character group. -/
def restQuoteDot (es : List Char) : Option Char :=
  match es with
  | [] => none
  | c :: rest =>
    if c = '"' || c = Char.ofNat 39 then
      match tryDot rest with
      | some d => some d
      | none => tryDot es
    else tryDot es

/-- Backtracking of the greedy whitespace-star of the creation pattern: try
consuming `m` whitespace characters, then fewer, down to zero. -/
def restMatchFrom (ds : List Char) : Nat → Option Char
  | 0 => restQuoteDot ds
  | Nat.succ k =>
    match restQuoteDot (ds.drop (k + 1)) with
    | some c => some c
    | none => restMatchFrom ds k

/-- Match of the creation pattern rest after the kind group: whitespace-star
(greedy, maximal run first), optional quote, lazy one-character capture. -/
def restMatch (ds : List Char) : Option Char :=
  restMatchFrom ds (ds.takeWhile pyIsSpace).length

/-- One attempt of the creation pattern with the greedy dot-star consuming
exactly `k` characters (all of which must be non-newline), then the kind
alternation and the pattern rest. -/
def creationTryAt (tail : List Char) (k : Nat) : Option (String × Char) :=
  if (tail.take k).all (fun c => c ≠ '\n') then
    match kindAt (tail.drop k) with
    | some (kind, klen) =>
      match restMatch (tail.drop (k + klen)) with
      | some c => some (kind, c)
      | none => none
    | none => none
  else none

/-- Greedy dot-star backtracking of the creation pattern: longest consumed
prefix first, down to the empty prefix. -/
def creationKLoop (tail : List Char) : Nat → Option (String × Char)
  | 0 => creationTryAt tail 0
  | Nat.succ k =>
    match creationTryAt tail (k + 1) with
    | some r => some r
    | none => creationKLoop tail k

/-- Alternation (create|make) of the creation pattern at the head of `cs`,
tried in source order; returns the matched length. -/
def verbAt (cs : List Char) : Option Nat :=
  if ("create".data).isPrefixOf cs then some 6
  else if ("make".data).isPrefixOf cs then some 4
  else none

/-- Match of the whole creation pattern anchored at the head of `cs`: verb,
one whitespace character, then the greedy dot-star, kind and rest. -/
def creationMatchAt (cs : List Char) : Option (String × Char) :=
  match verbAt cs with
  | some vlen =>
    match cs.drop vlen with
    | d :: ds => if pyIsSpace d then creationKLoop ds ds.length else none
    | [] => none
  | none => none

/-- Leftmost search of the creation pattern of get_smart_command, returning
the kind capture (group 2) and the single-character name capture (group 3):
the lazy dot-plus of group 3, followed only by an optional quote and the
pattern end, always matches exactly one character. -/
def searchCreationL : List Char → Option (String × Char)
  | [] => none
  | c :: cs =>
    match creationMatchAt (c :: cs) with
    | some r => some r
    | none => searchCreationL cs

/-- Alternation (desktop|documents|downloads) of the location pattern at the
head of `cs`, tried in source order. -/
def locKeyAt (cs : List Char) : Option String :=
  if ("desktop".data).isPrefixOf cs then some "desktop"
  else if ("documents".data).isPrefixOf cs then some "documents"
  else if ("downloads".data).isPrefixOf cs then some "downloads"
  else none

/-- Match of the location pattern anchored at the head of `cs`: the literal
"on", one whitespace character, then the keyword alternation. -/
def locationMatchAt (cs : List Char) : Option String :=
  if ("on".data).isPrefixOf cs then
    match cs.drop 2 with
    | d :: ds => if pyIsSpace d then locKeyAt ds else none
    | [] => none
  else none

/-- Leftmost search of the location pattern of get_smart_command, returning
the keyword capture. -/
def searchLocationL : List Char → Option String
  | [] => none
  | c :: cs =>
    match locationMatchAt (c :: cs) with
    | some r => some r
    | none => searchLocationL cs

/-- Embedding of posixpath.join for two components: an absolute second
component replaces the first, otherwise a slash separates unless one is
already present. -/
def posixJoin (a b : String) : String :=
  if b.data.head? = some '/' then b
  else if a = "" then b
  else if a.data.getLast? = some '/' then a ++ b
  else a ++ "/" ++ b

/-- Path separators recognized by ntpath. -/
def ntSep (c : Char) : Bool := c = '\\' || c = '/'

/-- Embedding of ntpath.join for two components, modelled for the drive-less
arguments this resolver produces (ntpath's drive-letter splitting is never
exercised here: the joined components are ".", a home directory and plain
names). -/
def ntJoin (a b : String) : String :=
  if (b.data.head?.map ntSep).getD false then b
  else if a = "" then b
  else if ((a.data.getLast?.map (fun c => ntSep c || c = ':')).getD false) then a ++ b
  else a ++ "\\" ++ b

/-- Dispatch of os.path.join on the host OS (which platform.system() also
reports). -/
def osPathJoin (os : OSType) (a b : String) : String :=
  match os with
  | .Windows => ntJoin a b
  | _ => posixJoin a b

/-- Embedding of the desktop_path computation of nlp_processor.py: the
OneDrive desktop on Windows when the home directory mentions OneDrive, the
plain home desktop otherwise. -/
def desktopPath (os : OSType) (home : String) : String :=
  if (os == OSType.Windows) && isSubstr "OneDrive" home then
    osPathJoin os (osPathJoin os home "OneDrive") "Desktop"
  else osPathJoin os home "Desktop"

/-- Embedding of the location_map dict of get_smart_command; the wildcard
case is never produced by the location search and stands for the untouched
default base path. -/
def locationPath (os : OSType) (home : String) (kw : String) : String :=
  match kw with
  | "desktop" => desktopPath os home
  | "documents" => osPathJoin os home "Documents"
  | "downloads" => osPathJoin os home "Downloads"
  | _ => "."

/-- Layer tag of a resolved command, matching the logger lines of
get_smart_command ("Used Layer 1", "Used Layer 2", LLM fallback); the
origin-tag vocabulary of the specification calls these alias, rule and
generative. -/
inductive Origin
  | alias
  | rule
  | llm
deriving DecidableEq, Repr

/-- Python exceptions get_smart_command can raise in this embedding. -/
inductive PyErr
  | indexError
deriving DecidableEq, Repr

/-- Creation command emitted by Layer 2 of get_smart_command for the given
item type and already-joined path. -/
def mkCreationCmd (os : OSType) (item_type full_path : String) : String :=
  match os with
  | .Windows =>
    let ps_item_type := if item_type = "folder" || item_type = "directory" then "Directory" else "File"
    "New-Item -Path \"" ++ full_path ++ "\" -ItemType " ++ ps_item_type
  | _ =>
    let command := if item_type = "folder" || item_type = "directory" then "mkdir" else "touch"
    command ++ " \"" ++ full_path ++ "\""

/-- Embedding of get_smart_command of nlp_processor.py.  The host OS, the
home directory and the outcome of the ollama.chat call are parameters; the
result carries the layer that produced it.  `Except.error PyErr.indexError`
models the IndexError raised by `parts[0]` when the input splits into no
tokens (empty or whitespace-only input). -/
def get_smart_command (os : OSType) (home : String) (resp : Except String String)
    (text : String) : Except PyErr (Origin × String) :=
  let clean_text := pyLower (pyStrip text)
  let parts := pySplit (pyStrip text)
  let baseE : Except PyErr String :=
    if "new-item" ∈ parts then Except.ok (joinSpace (parts.take 3))
    else
      match parts with
      | [] => Except.error PyErr.indexError
      | p :: _ => Except.ok p
  match baseE with
  | .error e => .error e
  | .ok base_command =>
    let layer1 : Option String :=
      match ALIAS_MAP base_command with
      | some concept =>
        match COMMAND_MAP concept os with
        | some translated_base =>
          let args := if isSubstr "new-item" base_command then parts.drop 3 else parts.drop 1
          some (pyStrip (translated_base ++ " " ++ joinSpace args))
        | none => none
      | none => none
    match layer1 with
    | some cmd => .ok (Origin.alias, cmd)
    | none =>
      match searchCreationL clean_text.data with
      | some (item_type, nameChar) =>
        let item_name := pyStrip (String.mk [nameChar])
        let base_path :=
          match searchLocationL clean_text.data with
          | some kw => locationPath os home kw
          | none => "."
        let full_path := osPathJoin os base_path item_name
        .ok (Origin.rule, mkCreationCmd os item_type full_path)
      | none => .ok (Origin.llm, call_ollama_model resp)

/-- Observable outcome of the subprocess.run call of execute_command:
normal exit with stdout, non-zero exit (subprocess.CalledProcessError
carrying stderr), or an unresolvable executable (FileNotFoundError). -/
inductive RunOutcome
  | success (stdout : String)
  | calledProcessError (stderr : String)
  | fileNotFound
deriving DecidableEq, Repr

/-- Embedding of execute_command of shell_core.py.  `none` models an
exception escaping the function: the only such path is the IndexError from
`command.split()[0]` in the FileNotFoundError handler when the command has
no tokens. -/
def execute_command (command : String) (outcome : RunOutcome) : Option String :=
  if command = "" then some "No command to execute."
  else
    match outcome with
    | .success stdout => some stdout
    | .calledProcessError stderr => some stderr
    | .fileNotFound =>
      match pySplit command with
      | [] => none
      | t :: _ => some ("Command not found: " ++ t)

/-- Embedding of str.startswith. -/
def pyStartsWith (s pre : String) : Bool := pre.data.isPrefixOf s.data

/-- State of the autocomplete engine module: whether the model and tokenizer
loaded (both `None` checks of the source collapse to this flag) and the
module-level suggestion cache `_cache`.  The dict is an association list
whose lookup finds the most recent binding, matching dict assignment
semantics for the keys looked up. -/
structure AutoState where
  modelLoaded : Bool
  cache : List (String × List String)
deriving DecidableEq, Repr

/-- Lookup in the suggestion cache (`key in _cache` and `_cache[key]`). -/
def cacheGet : List (String × List String) → String → Option (List String)
  | [], _ => none
  | (k, v) :: rest, key => if k = key then some v else cacheGet rest key

/-- Store into the suggestion cache (`_cache[key] = value`). -/
def cachePut (c : List (String × List String)) (k : String) (v : List String) :
    List (String × List String) :=
  (k, v) :: c

/-- Worker for the dedup loop of _generate_sync_suggestions: drop empty
strings and strings already seen, keeping the first occurrence order. -/
def dedupAux (seen : List String) : List String → List String
  | [] => []
  | r :: rs =>
    if r = "" ∨ r ∈ seen then dedupAux seen rs
    else r :: dedupAux (r :: seen) rs

/-- Dedup of _generate_sync_suggestions starting from an empty seen set. -/
def dedupFirst (l : List String) : List String := dedupAux [] l

/-- Embedding of _generate_sync_suggestions of autocomplete_engine.py.  The
model's decoded beam outputs are the parameter `modelOuts`; `none` models an
exception inside the try block, which the function swallows into an empty
list.  Each decoded output is stripped, then deduplicated preserving
first-seen order. -/
def generate_sync_suggestions (modelLoaded : Bool) (text : String)
    (modelOuts : Option (List String)) : List String :=
  if pyStrip text = "" || !modelLoaded then []
  else
    match modelOuts with
    | none => []
    | some outs => dedupFirst (outs.map pyStrip)

/-- Embedding of the post-filter loop of suggest: empty suggestions are
skipped; the containment test only chooses between two branches that both
keep the suggestion, as in the source. -/
def postFilter (key : String) : List String → List String
  | [] => []
  | s :: rest =>
    if s = "" then postFilter key rest
    else if isSubstr key (pyLower s) || pyStartsWith (pyLower s) key then s :: postFilter key rest
    else s :: postFilter key rest

/-- Result of one suggest call: the returned list, the module state after
the call, and whether the generation executor was invoked. -/
structure SuggestOut where
  result : List String
  state : AutoState
  genInvoked : Bool
deriving Repr

/-- Embedding of suggest of autocomplete_engine.py.  The parameter `gen` is
the outcome of awaiting run_in_executor: `Except.error ()` models the await
itself raising (suggest returns an empty list without caching), and
`Except.ok modelOuts` a completed executor call whose model outcome is
`modelOuts` as in `generate_sync_suggestions`. -/
def suggest (st : AutoState) (text : String) (limit : Nat)
    (gen : Except Unit (Option (List String))) : SuggestOut :=
  if pyStrip text = "" then ⟨[], st, false⟩
  else if !st.modelLoaded then ⟨[], st, false⟩
  else
    let key := pyLower (pyStrip text)
    match cacheGet st.cache key with
    | some v => ⟨v.take limit, st, false⟩
    | none =>
      match gen with
      | .error _ => ⟨[], st, true⟩
      | .ok modelOuts =>
        let suggestions := generate_sync_suggestions st.modelLoaded text modelOuts
        let filtered := postFilter key suggestions
        ⟨filtered.take limit, ⟨st.modelLoaded, cachePut st.cache key filtered⟩, true⟩

/-- Module states of autocomplete_engine.py reachable from import time: the
cache starts empty at import, each completed suggest call moves the state
forward, and clear_cache empties the cache. -/
inductive CacheReach : AutoState → Prop
  | init (b : Bool) : CacheReach ⟨b, []⟩
  | step (st : AutoState) (text : String) (limit : Nat)
      (gen : Except Unit (Option (List String))) :
      CacheReach st → CacheReach (suggest st text limit gen).state
  | clear (st : AutoState) : CacheReach st → CacheReach ⟨st.modelLoaded, []⟩

/-- Character-list mirror of " ".join, used to reason about joinSpace. -/
def joinL : List (List Char) → List Char
  | [] => []
  | [x] => x
  | x :: xs => x ++ ' ' :: joinL xs

/-- Token wellformedness: nonempty and free of whitespace characters. -/
def GoodTok (w : List Char) : Prop := w ≠ [] ∧ ∀ c ∈ w, pyIsSpace c = false

/-- Token wellformedness at the String level. -/
def GoodTokS (w : String) : Prop := GoodTok w.data

/-- Boolean check that a character list begins with a non-whitespace
character. -/
def headOk (cs : List Char) : Bool :=
  match cs with
  | [] => false
  | c :: _ => !pyIsSpace c

/-- Boolean check that a character list ends with a non-whitespace
character. -/
def lastOk (cs : List Char) : Bool := headOk cs.reverse

def isPunctChar (c : Char) : Bool :=
  c = '.' || c = ',' || c = ';' || c = ':' || c = '!' || c = '?'

def dropTrailPunct (cs : List Char) : List Char :=
  (cs.reverse.dropWhile isPunctChar).reverse

def extract_command_spec (content : String) : String :=
  match searchCodeBlockL content.data with
  | some body => String.mk (pyStripL body)
  | none =>
    match (splitNlL content.data).reverse.find? (fun l => !(pyStripL l).isEmpty) with
    | some l => String.mk (pyStripL l)
    | none => String.mk (dropTrailPunct (removeBackquotes (pyStripL content.data)))

theorem mk_data (s : String) : String.mk s.data = s := rfl

theorem data_joinSpace (ts : List String) : (joinSpace ts).data = joinL (ts.map String.data) := by
  match ts with
  | [] => rfl
  | [x] => rfl
  | x :: y :: ts =>
    show (x ++ " " ++ joinSpace (y :: ts)).data = x.data ++ ' ' :: joinL ((y :: ts).map String.data)
    rw [String.data_append, String.data_append, data_joinSpace (y :: ts)]
    simp

theorem splitAux_word (w : List Char) (hw : ∀ c ∈ w, pyIsSpace c = false) :
    ∀ cs acc, splitAux (w ++ cs) acc = splitAux cs (w.reverse ++ acc) := by
  induction w with
  | nil => intro cs acc; rfl
  | cons c w ih =>
    intro cs acc
    have hc : pyIsSpace c = false := hw c (List.mem_cons_self c w)
    have hw' : ∀ d ∈ w, pyIsSpace d = false := fun d hd => hw d (List.mem_cons_of_mem c hd)
    show splitAux (c :: (w ++ cs)) acc = _
    simp [splitAux, hc, ih hw' cs (c :: acc)]

theorem splitAux_ws_run (run : List Char) (hr : ∀ c ∈ run, pyIsSpace c = true) :
    ∀ acc, splitAux run acc = if acc.isEmpty then [] else [acc.reverse] := by
  induction run with
  | nil => intro acc; rfl
  | cons c run ih =>
    intro acc
    have hc : pyIsSpace c = true := hr c (List.mem_cons_self c run)
    have hr' : ∀ d ∈ run, pyIsSpace d = true := fun d hd => hr d (List.mem_cons_of_mem c hd)
    by_cases hacc : acc.isEmpty <;> simp [splitAux, hc, hacc, ih hr']

theorem splitAux_append_ws (run : List Char) (hr : ∀ c ∈ run, pyIsSpace c = true) :
    ∀ cs acc, splitAux (cs ++ run) acc = splitAux cs acc := by
  intro cs
  induction cs with
  | nil =>
    intro acc
    rw [List.nil_append, splitAux_ws_run run hr acc]
    rfl
  | cons c cs ih =>
    intro acc
    show splitAux (c :: (cs ++ run)) acc = splitAux (c :: cs) acc
    by_cases hc : pyIsSpace c = true <;> by_cases hacc : acc.isEmpty <;>
      simp [splitAux, hc, hacc, ih]

theorem splitAux_dropWhile (cs : List Char) :
    splitAux (cs.dropWhile pyIsSpace) [] = splitAux cs [] := by
  induction cs with
  | nil => rfl
  | cons c cs ih =>
    by_cases hc : pyIsSpace c = true
    · rw [List.dropWhile_cons_of_pos hc, ih]
      show _ = splitAux (c :: cs) []
      simp [splitAux, hc]
    · rw [List.dropWhile_cons_of_neg (by simpa using hc)]

theorem pySplitL_strip (cs : List Char) : pySplitL (pyStripL cs) = pySplitL cs := by
  show splitAux (pyStripL cs) [] = splitAux cs []
  have hsplit : (cs.dropWhile pyIsSpace).reverse.takeWhile pyIsSpace ++
      (cs.dropWhile pyIsSpace).reverse.dropWhile pyIsSpace = (cs.dropWhile pyIsSpace).reverse :=
    List.takeWhile_append_dropWhile _ _
  have hdecomp : cs.dropWhile pyIsSpace =
      ((cs.dropWhile pyIsSpace).reverse.dropWhile pyIsSpace).reverse ++
      ((cs.dropWhile pyIsSpace).reverse.takeWhile pyIsSpace).reverse := by
    have h2 := congrArg List.reverse hsplit
    rw [List.reverse_append, List.reverse_reverse] at h2
    exact h2.symm
  have hws : ∀ c ∈ ((cs.dropWhile pyIsSpace).reverse.takeWhile pyIsSpace).reverse,
      pyIsSpace c = true := by
    intro c hc
    rw [List.mem_reverse] at hc
    exact List.mem_takeWhile_imp hc
  calc splitAux (pyStripL cs) []
      = splitAux (((cs.dropWhile pyIsSpace).reverse.dropWhile pyIsSpace).reverse ++
          ((cs.dropWhile pyIsSpace).reverse.takeWhile pyIsSpace).reverse) [] := by
        rw [splitAux_append_ws _ hws]
        rfl
    _ = splitAux (cs.dropWhile pyIsSpace) [] := by rw [← hdecomp]
    _ = splitAux cs [] := splitAux_dropWhile cs

theorem splitAux_joinL (ts : List (List Char)) (hts : ∀ t ∈ ts, GoodTok t) :
    splitAux (joinL ts) [] = ts := by
  match ts with
  | [] => rfl
  | [t] =>
    obtain ⟨hne, hnw⟩ := hts t (List.mem_singleton_self t)
    show splitAux t [] = [t]
    have h1 := splitAux_word t hnw [] []
    rw [List.append_nil] at h1
    rw [h1]
    show splitAux [] (t.reverse ++ []) = [t]
    rw [List.append_nil]
    show (if t.reverse.isEmpty then [] else [t.reverse.reverse]) = [t]
    rw [if_neg (by simpa using hne), List.reverse_reverse]
  | t :: t' :: ts =>
    obtain ⟨hne, hnw⟩ := hts t (List.mem_cons_self _ _)
    have hts' : ∀ u ∈ t' :: ts, GoodTok u := fun u hu => hts u (List.mem_cons_of_mem t hu)
    show splitAux (t ++ ' ' :: joinL (t' :: ts)) [] = t :: t' :: ts
    rw [splitAux_word t hnw _ [], List.append_nil]
    show splitAux (' ' :: joinL (t' :: ts)) t.reverse = t :: t' :: ts
    have hsp : pyIsSpace ' ' = true := rfl
    have hacc : t.reverse.isEmpty = false := by simpa using hne
    simp [splitAux, hsp, hacc, splitAux_joinL (t' :: ts) hts']

theorem pySplit_strip_joinSpace (ts : List String) (hts : ∀ t ∈ ts, GoodTokS t) :
    pySplit (pyStrip (joinSpace ts)) = ts := by
  show ((pySplitL (pyStripL (joinSpace ts).data)).map String.mk) = ts
  rw [pySplitL_strip]
  show (pySplitL (joinSpace ts).data).map String.mk = ts
  rw [data_joinSpace]
  show (splitAux (joinL (ts.map String.data)) []).map String.mk = ts
  rw [splitAux_joinL (ts.map String.data) (by
    intro t ht
    rw [List.mem_map] at ht
    obtain ⟨s, hs, rfl⟩ := ht
    exact hts s hs)]
  rw [List.map_map]
  show ts.map (fun s => String.mk s.data) = ts
  simp [mk_data]

theorem headOk_append_left (a b : List Char) (h : headOk a = true) :
    headOk (a ++ b) = true := by
  cases a with
  | nil => exact absurd h (by simp [headOk])
  | cons c r => simpa [headOk] using h

theorem lastOk_append_right (a b : List Char) (h : lastOk b = true) :
    lastOk (a ++ b) = true := by
  unfold lastOk at h ⊢
  rw [List.reverse_append]
  exact headOk_append_left _ _ h

theorem goodTok_headOk (t : List Char) (h : GoodTok t) : headOk t = true := by
  obtain ⟨hne, hnw⟩ := h
  cases t with
  | nil => exact absurd rfl hne
  | cons c r => simp [headOk, hnw c (List.mem_cons_self c r)]

theorem goodTok_lastOk (t : List Char) (h : GoodTok t) : lastOk t = true := by
  obtain ⟨hne, hnw⟩ := h
  unfold lastOk
  cases hr : t.reverse with
  | nil => exact absurd (by simpa using congrArg List.reverse hr) hne
  | cons c r =>
    have hc : c ∈ t := by
      rw [← List.mem_reverse, hr]
      exact List.mem_cons_self c r
    simp [headOk, hnw c hc]

theorem joinL_ne_nil (ts : List (List Char)) (hts : ∀ t ∈ ts, GoodTok t)
    (hne : ts ≠ []) : joinL ts ≠ [] := by
  match ts with
  | [] => exact absurd rfl hne
  | [t] => exact (hts t (List.mem_singleton_self t)).1
  | t :: t' :: ts =>
    show t ++ ' ' :: joinL (t' :: ts) ≠ []
    have h1 := (hts t (List.mem_cons_self _ _)).1
    cases t with
    | nil => exact absurd rfl h1
    | cons c r => simp

theorem joinL_lastOk (ts : List (List Char)) (hts : ∀ t ∈ ts, GoodTok t)
    (hne : ts ≠ []) : lastOk (joinL ts) = true := by
  match ts with
  | [] => exact absurd rfl hne
  | [t] => exact goodTok_lastOk t (hts t (List.mem_singleton_self t))
  | t :: t' :: ts =>
    show lastOk (t ++ ' ' :: joinL (t' :: ts)) = true
    have hts' : ∀ u ∈ t' :: ts, GoodTok u := fun u hu => hts u (List.mem_cons_of_mem t hu)
    have ih := joinL_lastOk (t' :: ts) hts' (by simp)
    have hjoin : (' ' :: joinL (t' :: ts)) = [' '] ++ joinL (t' :: ts) := rfl
    rw [hjoin, ← List.append_assoc]
    exact lastOk_append_right _ _ ih

theorem pyStripL_eq_self (cs : List Char) (h1 : headOk cs = true) (h2 : lastOk cs = true) :
    pyStripL cs = cs := by
  have hfront : cs.dropWhile pyIsSpace = cs := by
    cases cs with
    | nil => rfl
    | cons c r =>
      have : pyIsSpace c = false := by simpa [headOk] using h1
      exact List.dropWhile_cons_of_neg (by simp [this])
  have hback : cs.reverse.dropWhile pyIsSpace = cs.reverse := by
    cases hr : cs.reverse with
    | nil => rfl
    | cons c r =>
      have hc : pyIsSpace c = false := by
        unfold lastOk at h2
        rw [hr] at h2
        simpa [headOk] using h2
      exact List.dropWhile_cons_of_neg (by simp [hc])
  unfold pyStripL
  rw [hfront, hback, List.reverse_reverse]

theorem pyStrip_eq_self_of_ends (x : String) (h1 : headOk x.data = true)
    (h2 : lastOk x.data = true) : pyStrip x = x := by
  show String.mk (pyStripL x.data) = x
  rw [pyStripL_eq_self x.data h1 h2]

theorem goodTokS_data (a : String) (h : GoodTokS a) : GoodTok a.data := h
theorem dedupAux_mem (l : List String) : ∀ (seen : List String) (x : String),
    x ∈ dedupAux seen l → x ∈ l ∧ x ∉ seen ∧ x ≠ "" := by
  induction l with
  | nil => intro seen x hx; simp [dedupAux] at hx
  | cons r rs ih =>
    intro seen x hx
    unfold dedupAux at hx
    by_cases hcond : r = "" ∨ r ∈ seen
    · rw [if_pos hcond] at hx
      obtain ⟨h1, h2, h3⟩ := ih seen x hx
      exact ⟨List.mem_cons_of_mem r h1, h2, h3⟩
    · rw [if_neg hcond] at hx
      push_neg at hcond
      rcases List.mem_cons.mp hx with rfl | hx'
      · exact ⟨List.mem_cons_self _ _, hcond.2, hcond.1⟩
      · obtain ⟨h1, h2, h3⟩ := ih (r :: seen) x hx'
        exact ⟨List.mem_cons_of_mem r h1, fun hs => h2 (List.mem_cons_of_mem r hs), h3⟩

theorem dedupAux_nodup (l : List String) : ∀ seen : List String, (dedupAux seen l).Nodup := by
  induction l with
  | nil => intro seen; simp [dedupAux]
  | cons r rs ih =>
    intro seen
    unfold dedupAux
    by_cases hcond : r = "" ∨ r ∈ seen
    · rw [if_pos hcond]; exact ih seen
    · rw [if_neg hcond]
      rw [List.nodup_cons]
      refine ⟨fun hmem => ?_, ih (r :: seen)⟩
      obtain ⟨_, h2, _⟩ := dedupAux_mem rs (r :: seen) r hmem
      exact h2 (List.mem_cons_self _ _)

theorem dedupAux_sublist (l : List String) : ∀ seen : List String, (dedupAux seen l).Sublist l := by
  induction l with
  | nil => intro seen; simp [dedupAux]
  | cons r rs ih =>
    intro seen
    unfold dedupAux
    by_cases hcond : r = "" ∨ r ∈ seen
    · rw [if_pos hcond]; exact List.Sublist.cons r (ih seen)
    · rw [if_neg hcond]; exact List.Sublist.cons₂ r (ih (r :: seen))

theorem postFilter_eq_self (key : String) (l : List String) (h : ∀ s ∈ l, s ≠ "") :
    postFilter key l = l := by
  induction l with
  | nil => rfl
  | cons s rest ih =>
    have hs : s ≠ "" := h s (List.mem_cons_self _ _)
    have h' : ∀ u ∈ rest, u ≠ "" := fun u hu => h u (List.mem_cons_of_mem s hu)
    unfold postFilter
    rw [if_neg hs]
    by_cases hc : (isSubstr key (pyLower s) || pyStartsWith (pyLower s) key) = true
    · rw [if_pos hc, ih h']
    · rw [if_neg hc, ih h']

theorem stored_value_shape (ml : Bool) (text : String) (mo : Option (List String)) (key : String) :
    ∃ outs : List String,
      postFilter key (generate_sync_suggestions ml text mo) = dedupFirst (outs.map pyStrip) ∧
      (postFilter key (generate_sync_suggestions ml text mo)).Sublist (outs.map pyStrip) := by
  have hself : ∀ X : List String, postFilter key (dedupFirst X) = dedupFirst X := by
    intro X
    apply postFilter_eq_self
    intro s hs
    exact (dedupAux_mem X [] s hs).2.2
  have hgss : generate_sync_suggestions ml text mo = [] ∨
      ∃ outs, mo = some outs ∧
        generate_sync_suggestions ml text mo = dedupFirst (outs.map pyStrip) := by
    unfold generate_sync_suggestions
    by_cases hcond : (pyStrip text = "" || !ml) = true
    · left; rw [if_pos hcond]
    · rw [if_neg hcond]
      cases mo with
      | none => left; rfl
      | some outs => right; exact ⟨outs, rfl, rfl⟩
  rcases hgss with hg | ⟨outs, hmo, hg⟩
  · refine ⟨[], ?_, ?_⟩ <;> rw [hg] <;> simp [postFilter, dedupFirst, dedupAux]
  · refine ⟨outs, ?_, ?_⟩
    · rw [hg, hself _]
    · rw [hg, hself _]
      exact dedupAux_sublist _ []

theorem suggest_state_cases (st : AutoState) (text : String) (limit : Nat)
    (gen : Except Unit (Option (List String))) :
    (suggest st text limit gen).state = st ∨
    ∃ modelOuts, gen = Except.ok modelOuts ∧
      (suggest st text limit gen).state =
        ⟨st.modelLoaded, cachePut st.cache (pyLower (pyStrip text))
          (postFilter (pyLower (pyStrip text))
            (generate_sync_suggestions st.modelLoaded text modelOuts))⟩ := by
  unfold suggest
  by_cases h1 : pyStrip text = ""
  · left; rw [if_pos h1]
  · rw [if_neg h1]
    by_cases h2 : (!st.modelLoaded) = true
    · left; rw [if_pos h2]
    · rw [if_neg h2]
      cases hcache : cacheGet st.cache (pyLower (pyStrip text)) with
      | some v => left; simp [hcache]
      | none =>
        cases gen with
        | error e => left; simp [hcache]
        | ok modelOuts => right; exact ⟨modelOuts, rfl, by simp [hcache]⟩

/-- C10: in every reachable state of the autocomplete module, every list stored
as a cache value contains no empty strings and no duplicates, and equals the
first-seen-order dedup of some model output list (each output stripped), hence
is an order-preserving sublist of that output. -/
theorem c10_cache_value_invariant (st : AutoState) (h : CacheReach st) :
    ∀ (k : String) (v : List String), cacheGet st.cache k = some v →
      "" ∉ v ∧ v.Nodup ∧
      ∃ outs : List String, v = dedupFirst (outs.map pyStrip) ∧ v.Sublist (outs.map pyStrip) := by
  induction h with
  | init b => intro k v hv; simp [cacheGet] at hv
  | clear st hst ih => intro k v hv; simp [cacheGet] at hv
  | step st text limit gen hst ih =>
    intro k v hv
    rcases suggest_state_cases st text limit gen with heq | ⟨mo, hgen, heq⟩
    · rw [heq] at hv
      exact ih k v hv
    · rw [heq] at hv
      unfold cachePut cacheGet at hv
      by_cases hk : pyLower (pyStrip text) = k
      · rw [if_pos hk] at hv
        injection hv with hv
        obtain ⟨outs, hshape, hsub⟩ := stored_value_shape st.modelLoaded text mo (pyLower (pyStrip text))
        subst hv
        refine ⟨?_, ?_, outs, hshape, hsub⟩
        · rw [hshape]
          intro hmem
          exact (dedupAux_mem _ [] "" hmem).2.2 rfl
        · rw [hshape]
          exact dedupAux_nodup _ []
      · rw [if_neg hk] at hv
        exact ih k v hv
theorem splitNl_ne_nil (cs : List Char) : splitNlL cs ≠ [] := by
  cases cs with
  | nil => simp [splitNlL]
  | cons c cs =>
    unfold splitNlL
    by_cases h : c = '\n'
    · rw [if_pos h]; simp
    · rw [if_neg h]
      cases hm : splitNlL cs <;> simp

theorem filter_map_getLast (ls : List (List Char)) :
    ((ls.map pyStripL).filter (fun l => !l.isEmpty)).getLast? =
      (ls.reverse.find? (fun l => !(pyStripL l).isEmpty)).map pyStripL := by
  induction ls using List.reverseRecOn with
  | nil => rfl
  | append_singleton ls a ih =>
    rw [List.map_append, List.filter_append, List.reverse_append]
    by_cases hp : (pyStripL a).isEmpty = true
    · simp only [List.map_cons, List.map_nil, List.filter_cons, hp, Bool.not_true,
        Bool.false_eq_true, if_false, List.filter_nil, List.append_nil,
        List.reverse_singleton, List.singleton_append, List.find?_cons]
      rw [ih]
    · rw [Bool.not_eq_true] at hp
      simp only [List.map_cons, List.map_nil, List.filter_cons, hp, Bool.not_false, if_true,
        List.reverse_singleton, List.singleton_append, List.find?_cons]
      simp [hp, List.getLast?_concat]

theorem stripL_nil_of_all_ws (l : List Char) (h : ∀ c ∈ l, pyIsSpace c = true) :
    pyStripL l = [] := by
  have h1 : l.dropWhile pyIsSpace = [] := List.dropWhile_eq_nil_iff.mpr h
  unfold pyStripL
  rw [h1]
  rfl

theorem all_ws_of_stripL_nil (l : List Char) (h : pyStripL l = []) :
    ∀ c ∈ l, pyIsSpace c = true := by
  unfold pyStripL at h
  have h1 : (l.dropWhile pyIsSpace).reverse.dropWhile pyIsSpace = [] := by
    have h2 := congrArg List.reverse h
    rw [List.reverse_reverse] at h2
    simpa using h2
  have h3 : ∀ x ∈ (l.dropWhile pyIsSpace).reverse, pyIsSpace x = true :=
    List.dropWhile_eq_nil_iff.mp h1
  have h4 : ∀ x ∈ l.dropWhile pyIsSpace, pyIsSpace x = true :=
    fun x hx => h3 x (List.mem_reverse.mpr hx)
  intro c hc
  have hdec : l.takeWhile pyIsSpace ++ l.dropWhile pyIsSpace = l :=
    List.takeWhile_append_dropWhile _ _
  rw [← hdec] at hc
  rcases List.mem_append.mp hc with h5 | h5
  · exact List.mem_takeWhile_imp h5
  · exact h4 c h5

theorem mem_splitNl (cs : List Char) : ∀ c ∈ cs, c = '\n' ∨ ∃ l ∈ splitNlL cs, c ∈ l := by
  induction cs with
  | nil => intro c hc; simp at hc
  | cons d cs ih =>
    intro c hc
    by_cases hd : d = '\n'
    · subst hd
      rcases List.mem_cons.mp hc with rfl | hc'
      · left; rfl
      · rcases ih c hc' with h | ⟨l, hl, hcl⟩
        · left; exact h
        · right
          refine ⟨l, ?_, hcl⟩
          show l ∈ splitNlL ('\n' :: cs)
          unfold splitNlL
          rw [if_pos rfl]
          exact List.mem_cons_of_mem _ hl
    · cases hsp : splitNlL cs with
      | nil => exact absurd hsp (splitNl_ne_nil cs)
      | cons hh tt =>
        have hrepr : splitNlL (d :: cs) = (d :: hh) :: tt := by
          unfold splitNlL
          rw [if_neg hd, hsp]
        rcases List.mem_cons.mp hc with rfl | hc'
        · right
          exact ⟨c :: hh, by rw [hrepr]; exact List.mem_cons_self _ _, List.mem_cons_self _ _⟩
        · rcases ih c hc' with h | ⟨l, hl, hcl⟩
          · left; exact h
          · rw [hsp] at hl
            rcases List.mem_cons.mp hl with rfl | hl'
            · right
              exact ⟨d :: l, by rw [hrepr]; exact List.mem_cons_self _ _,
                List.mem_cons_of_mem d hcl⟩
            · right
              exact ⟨l, by rw [hrepr]; exact List.mem_cons_of_mem _ hl', hcl⟩

theorem blank_strip (cs : List Char)
    (h : (splitNlL cs).reverse.find? (fun l => !(pyStripL l).isEmpty) = none) :
    pyStripL cs = [] := by
  have hall : ∀ l ∈ (splitNlL cs).reverse, (!(pyStripL l).isEmpty) = false := by
    intro l hl
    exact Bool.not_eq_true _ ▸ (List.find?_eq_none.mp h l hl)
  have hlines : ∀ l ∈ splitNlL cs, pyStripL l = [] := by
    intro l hl
    have h2 := hall l (List.mem_reverse.mpr hl)
    rw [Bool.not_eq_false'] at h2
    exact List.isEmpty_iff.mp h2
  apply stripL_nil_of_all_ws
  intro c hc
  rcases mem_splitNl cs c hc with rfl | ⟨l, hl, hcl⟩
  · rfl
  · exact all_ws_of_stripL_nil l (hlines l hl) c hcl

/-- C5: command extraction follows the strict priority order of the claim: the
first fenced code block (stripped) if one exists, else the last line with
non-whitespace content (stripped), else the raw response sanitized (trimmed,
backquotes removed, trailing punctuation removed - in this last branch the
response is whitespace-only, so both sides are the empty string).  The
right-hand side extract_command_spec is written from the specification's words;
the theorem proves the source extraction function equal to it on every input. -/
theorem c5_extraction_priority (content : String) :
    extract_command_from_output content = extract_command_spec content := by
  unfold extract_command_from_output extract_command_spec
  cases hcb : searchCodeBlockL content.data with
  | some body => rfl
  | none =>
    simp only []
    rw [filter_map_getLast]
    cases hf : (splitNlL content.data).reverse.find? (fun l => !(pyStripL l).isEmpty) with
    | some l => rfl
    | none =>
      have hnil : pyStripL content.data = [] := blank_strip _ hf
      rw [hnil]
      rfl
theorem COMMAND_MAP_headOk (concept : String) (os : OSType) (tr : String)
    (h : COMMAND_MAP concept os = some tr) : headOk tr.data = true := by
  unfold COMMAND_MAP at h
  split at h <;> (try exact Option.noConfusion h) <;>
    (injection h with h; subst h; decide)

/-- C3 (amended): for every single-word trigger t of the AliasTable (that is,
every trigger except "ls -a" and the two three-word new-item forms) whose
concept has an entry for the current OS, and every non-empty list of
whitespace-free argument tokens not containing "new-item", resolving
t ++ " " ++ args yields ConceptCommandTable[concept][OS] ++ " " ++ args with
origin alias.  The counterexample shows the original claim fails for the
multi-word trigger "ls -a". -/
theorem c3_alias_layer_translation (os : OSType) (home : String) (resp : Except String String)
    (t concept translated : String) (argToks : List String)
    (halias : ALIAS_MAP t = some concept)
    (hcm : COMMAND_MAP concept os = some translated)
    (ht : GoodTokS t)
    (hargs : ∀ a ∈ argToks, GoodTokS a)
    (hargsne : argToks ≠ [])
    (hni1 : t ≠ "new-item")
    (hni2 : "new-item" ∉ argToks)
    (hsub : isSubstr "new-item" t = false) :
    get_smart_command os home resp (t ++ " " ++ joinSpace argToks) =
      .ok (Origin.alias, translated ++ " " ++ joinSpace argToks) := by
  obtain ⟨a, rest, rfl⟩ : ∃ a rest, argToks = a :: rest := by
    cases argToks with
    | nil => exact absurd rfl hargsne
    | cons a rest => exact ⟨a, rest, rfl⟩
  have hjoin : t ++ " " ++ joinSpace (a :: rest) = joinSpace (t :: a :: rest) := rfl
  have hgood : ∀ u ∈ t :: a :: rest, GoodTokS u := by
    intro u hu
    rcases List.mem_cons.mp hu with h | h
    · exact h ▸ ht
    · exact hargs u h
  have hparts : pySplit (pyStrip (joinSpace (t :: a :: rest))) = t :: a :: rest :=
    pySplit_strip_joinSpace _ hgood
  have hmem : ¬ ("new-item" ∈ t :: a :: rest) := by
    intro h
    rcases List.mem_cons.mp h with h | h
    · exact hni1 h.symm
    · exact hni2 h
  have hstrip : pyStrip (translated ++ " " ++ joinSpace (a :: rest)) =
      translated ++ " " ++ joinSpace (a :: rest) := by
    apply pyStrip_eq_self_of_ends
    · rw [String.data_append, String.data_append]
      rw [List.append_assoc]
      exact headOk_append_left _ _ (by
        cases htr : translated.data with
        | nil =>
          have := COMMAND_MAP_headOk concept os translated hcm
          rw [htr] at this
          exact absurd this (by simp [headOk])
        | cons c r =>
          have := COMMAND_MAP_headOk concept os translated hcm
          rw [htr] at this
          exact this)
    · rw [String.data_append, String.data_append, data_joinSpace]
      apply lastOk_append_right
      exact joinL_lastOk _ (by
        intro u hu
        rw [List.mem_map] at hu
        obtain ⟨s, hs, rfl⟩ := hu
        exact hargs s hs) (by simp)
  rw [hjoin]
  simp only [get_smart_command, hparts]
  rw [if_neg hmem]
  simp only [halias, hcm, hsub]
  simp only [Bool.false_eq_true, if_false, List.drop_succ_cons, List.drop_zero]
  rw [hstrip]

/-- C2 (amended): for every empty or whitespace-only input, get_smart_command
raises an IndexError (modelled as `Except.error PyErr.indexError`) before any
layer runs: no alias lookup, no rule match and no generative call happens (the
result is this error for every collaborator outcome `resp`).  The graceful
no-op rejection the claim describes lives in the caller (submit_message of
tui_app.py), not in the resolver. -/
theorem c2_empty_input_raises_before_layers (os : OSType) (home : String) (resp : Except String String)
    (text : String) (h : pyStrip text = "") :
    get_smart_command os home resp text = .error PyErr.indexError := by
  have hparts : pySplit (pyStrip text) = [] := by rw [h]; rfl
  simp only [get_smart_command, hparts]
  rw [if_neg (List.not_mem_nil "new-item")]

/-- C7 (amended): for every command string with at least one whitespace-separated
token, execute_command returns the captured stderr on a non-zero exit status
instead of raising, and returns the distinguishable string
"Command not found: " followed by the first token when the executable cannot be
resolved.  (For a whitespace-only command the command-not-found handler itself
raises IndexError, see the counterexample.) -/
theorem c7_execute_command_error_results (command : String) (h : command ≠ "") :
    (∀ err, execute_command command (RunOutcome.calledProcessError err) = some err) ∧
    (∀ t rest, pySplit command = t :: rest →
      execute_command command RunOutcome.fileNotFound = some ("Command not found: " ++ t)) := by
  constructor
  · intro err
    simp [execute_command, h]
  · intro t rest hsplit
    simp [execute_command, h, hsplit]

/-- C6: the generative Layer 3 never raises to its caller (its embedding is a
total function of the collaborator outcome); when the ollama call errors it
returns a safe diagnostic echo command naming the error, and when the extracted
command is the COMMAND_NOT_FOUND sentinel it returns a fixed safe diagnostic
string instead of an empty or garbage string. -/
theorem c6_generative_layer_error_handling (resp : Except String String) :
    (∀ e, resp = .error e →
      call_ollama_model resp = "echo " ++ sglQuote ++ "Error with LLM service: " ++ e ++ sglQuote) ∧
    (∀ raw, resp = .ok raw → extract_command_from_output raw = "COMMAND_NOT_FOUND" →
      call_ollama_model resp = "echo \"I am not able to generate a command for that request.\"") := by
  constructor
  · rintro e rfl
    rfl
  · rintro raw rfl hx
    simp [call_ollama_model, hx]

/-- C8: suggest is idempotent through the cache: for every non-blank text and
limit, after a first call (with the model loaded and the executor completing),
a second call with the same text and limit and unchanged state returns exactly
the same list, is served from the SuggestionCache entry keyed by the normalized
(trimmed, lower-cased) text, and does not invoke generation again (for any
outcome `gen2` the second call might have seen). -/
theorem c8_suggest_idempotent_via_cache (st : AutoState) (text : String) (limit : Nat)
    (modelOuts : Option (List String)) (gen2 : Except Unit (Option (List String)))
    (htext : pyStrip text ≠ "") (hml : st.modelLoaded = true) :
    suggest (suggest st text limit (.ok modelOuts)).state text limit gen2 =
      ⟨(suggest st text limit (.ok modelOuts)).result,
       (suggest st text limit (.ok modelOuts)).state, false⟩ ∧
    ∃ v, cacheGet (suggest st text limit (.ok modelOuts)).state.cache (pyLower (pyStrip text)) = some v ∧
      (suggest st text limit (.ok modelOuts)).result = v.take limit := by
  cases hcache : cacheGet st.cache (pyLower (pyStrip text)) with
  | some v =>
    constructor
    · simp [suggest, htext, hml, hcache]
    · exact ⟨v, by simp [suggest, htext, hml, hcache]⟩
  | none =>
    constructor
    · simp [suggest, htext, hml, hcache, cacheGet]
    · refine ⟨postFilter (pyLower (pyStrip text))
        (generate_sync_suggestions st.modelLoaded text modelOuts), ?_, ?_⟩
      · simp [suggest, htext, hml, hcache, cacheGet, cachePut]
      · simp [suggest, htext, hml, hcache]

/-- C1: counter-evidence.  The claim says a Layer 3 candidate matching a
SafetyGate destructive pattern is never returned verbatim; in the source the
looks_dangerous check inside call_ollama_model is commented out, so when the
collaborator answers "rm -rf /" for an input that reaches Layer 3 the resolver
returns that literal dangerous string, which looks_dangerous itself flags. -/
theorem c1_layer3_returns_dangerous_command_verbatim :
    get_smart_command OSType.Linux "/home/user" (Except.ok "rm -rf /")
        "delete everything recursively" = Except.ok (Origin.llm, "rm -rf /") ∧
    looks_dangerous "rm -rf /" = true :=
  ⟨rfl, rfl⟩

/-- C2: counterexample.  The claim says the resolver returns a no-op result for
empty input without raising; in fact get_smart_command evaluates parts[0] on an
empty token list and raises IndexError. -/
theorem c2_counterexample_empty_input_raises :
    get_smart_command OSType.Linux "/home/user" (Except.ok "echo hi") "" =
      Except.error PyErr.indexError :=
  rfl

/-- Witness for C2: the amended theorem applied at a concrete whitespace-only
input. -/
theorem c2_empty_input_raises_before_layers_witness :
    pyStrip "  " = "" ∧
    get_smart_command OSType.Windows "C:/Users/u" (Except.error "down") "  " =
      Except.error PyErr.indexError :=
  ⟨rfl, c2_empty_input_raises_before_layers OSType.Windows "C:/Users/u" (Except.error "down") "  " rfl⟩

/-- C3: counterexample.  For the multi-word trigger "ls -a" with empty argument
string, the claim predicts ConceptCommandTable[list_all_items][Linux] ++ " "
(that is "ls -a "), but the resolver extracts only the first token "ls",
resolves it through list_items and returns "ls -l -a". -/
theorem c3_counterexample_multiword_trigger :
    get_smart_command OSType.Linux "/home/user" (Except.ok "echo placeholder") "ls -a " =
      Except.ok (Origin.alias, "ls -l -a") ∧
    ("ls -l -a" : String) ≠ "ls -a" ++ " " ∧ ("ls -l -a" : String) ≠ "ls -a" :=
  ⟨rfl, by decide, by decide⟩

/-- Witness for C3: the amended theorem applied at the trigger "ls" with
argument token "-x" on Linux. -/
theorem c3_alias_layer_translation_witness :
    ALIAS_MAP "ls" = some "list_items" ∧
    COMMAND_MAP "list_items" OSType.Linux = some "ls -l" ∧
    get_smart_command OSType.Linux "/home/user" (Except.ok "echo placeholder")
        ("ls" ++ " " ++ joinSpace ["-x"]) =
      Except.ok (Origin.alias, "ls -l" ++ " " ++ joinSpace ["-x"]) :=
  ⟨rfl, rfl,
   c3_alias_layer_translation OSType.Linux "/home/user" (Except.ok "echo placeholder")
     "ls" "list_items" "ls -l" ["-x"] rfl rfl ⟨by decide, by decide⟩
     (by intro a ha; rcases List.mem_singleton.mp ha with rfl; exact ⟨by decide, by decide⟩)
     (by decide) (by decide) (by decide) rfl⟩

/-- C4: the failing input of the claim.  The creation regex captures the item
name with a lazy one-character group followed only by an optional quote, so
"create a folder named reports" captures the single character "n" and the
resolver emits mkdir "./n" instead of the claimed mkdir "./reports" (origin
rule and the current-directory base are as claimed). -/
theorem c4_creation_rule_emits_single_char_name :
    get_smart_command OSType.Linux "/home/user" (Except.ok "echo placeholder")
        "create a folder named reports" = Except.ok (Origin.rule, "mkdir \"./n\"") ∧
    ("mkdir \"./n\"" : String) ≠ "mkdir \"./reports\"" :=
  ⟨rfl, by decide⟩

/-- Witness for C6: the theorem applied at a failing collaborator call and at a
response carrying the COMMAND_NOT_FOUND sentinel. -/
theorem c6_generative_layer_error_handling_witness :
    call_ollama_model (Except.error "boom") =
      "echo " ++ sglQuote ++ "Error with LLM service: " ++ "boom" ++ sglQuote ∧
    call_ollama_model (Except.ok "COMMAND_NOT_FOUND") =
      "echo \"I am not able to generate a command for that request.\"" :=
  ⟨(c6_generative_layer_error_handling (Except.error "boom")).1 "boom" rfl,
   (c6_generative_layer_error_handling (Except.ok "COMMAND_NOT_FOUND")).2
     "COMMAND_NOT_FOUND" rfl rfl⟩

/-- C7: counterexample.  A whitespace-only command is a non-empty string, yet on
the FileNotFoundError path command.split()[0] raises IndexError (modelled as
`none`), so the claimed command-not-found result is not returned. -/
theorem c7_counterexample_whitespace_command :
    execute_command " " RunOutcome.fileNotFound = none :=
  rfl

/-- Witness for C7: the amended theorem applied at the command "ls -l". -/
theorem c7_execute_command_error_results_witness :
    execute_command "ls -l" (RunOutcome.calledProcessError "boom") = some "boom" ∧
    execute_command "ls -l" RunOutcome.fileNotFound = some ("Command not found: " ++ "ls") :=
  ⟨(c7_execute_command_error_results "ls -l" (by decide)).1 "boom",
   (c7_execute_command_error_results "ls -l" (by decide)).2 "ls" ["-l"] rfl⟩

/-- Witness for C8: the theorem applied at the input "ls" with limit 3 from the
fresh loaded state, with the second call facing an erroring executor (which it
never reaches, being served from the cache). -/
theorem c8_suggest_idempotent_via_cache_witness :
    pyStrip "ls" ≠ "" ∧
    (suggest (suggest ⟨true, []⟩ "ls" 3 (Except.ok (some ["ls -l"]))).state "ls" 3
        (Except.error ()) =
      ⟨(suggest (⟨true, []⟩ : AutoState) "ls" 3 (Except.ok (some ["ls -l"]))).result,
       (suggest (⟨true, []⟩ : AutoState) "ls" 3 (Except.ok (some ["ls -l"]))).state, false⟩ ∧
     ∃ v, cacheGet (suggest (⟨true, []⟩ : AutoState) "ls" 3
         (Except.ok (some ["ls -l"]))).state.cache (pyLower (pyStrip "ls")) = some v ∧
       (suggest (⟨true, []⟩ : AutoState) "ls" 3 (Except.ok (some ["ls -l"]))).result =
         v.take 3) :=
  ⟨by decide,
   c8_suggest_idempotent_via_cache ⟨true, []⟩ "ls" 3 (some ["ls -l"]) (Except.error ())
     (by decide) rfl⟩

/-- Witness for C10: the invariant applied to the state reached by one suggest
call whose model produced a duplicate and an empty suggestion; the stored value
is the deduplicated ["ls"]. -/
theorem c10_cache_value_invariant_witness :
    "" ∉ (["ls"] : List String) ∧ (["ls"] : List String).Nodup ∧
    ∃ outs : List String, (["ls"] : List String) = dedupFirst (outs.map pyStrip) ∧
      (["ls"] : List String).Sublist (outs.map pyStrip) :=
  c10_cache_value_invariant _
    (CacheReach.step ⟨true, []⟩ "open file" 6 (Except.ok (some ["ls", "ls", ""]))
      (CacheReach.init true))
    "open file" ["ls"] rfl
